import Mathlib

/-!
# urlwatch: the polling engine

A shallow embedding of `pkg/watchops` (watcher.go, watcherman.go) and of the
`start` command's pre-run check (cmd/start.go), with the properties of the
specification proved over it.

Conventions of the embedding.

* `time.Duration` is an `Int` count of nanoseconds.
* A Go `(T, error)` return is an `Except`.
* Channels, wait groups and other heap objects are handles (`Nat`) handed out
  by an allocation counter, so that "the same channel" is equality of handles.
* A goroutine is a program counter in a state; one step of the state machine is
  one completed communication (a channel receive, a rendezvous, a close).
* The HTTP round trip and the wall clock are inputs: the outcome of
  `http.DefaultTransport.RoundTrip` is a value of `RoundTripResult`.
-/

namespace Urlwatch

/-! ## Data model (watcher.go) -/

/-- Go's time.Duration, a signed number of nanoseconds. -/
abbrev TimeDuration := Int

/-- Duration.Milliseconds of the Go standard library: the nanosecond count
divided by 1e6, truncated toward zero. -/
def Milliseconds (d : TimeDuration) : Int := Int.tdiv d 1000000

/-- A handle of a heap object (a channel or a wait group). -/
abbrev Handle := Nat

/-- CheckResult models the data that is returned from checking a url. -/
structure CheckResult where
  URL : String
  Code : Int := 0
  Duration : TimeDuration := 0
  DNS : TimeDuration := 0
  TLS : TimeDuration := 0
  Conn : TimeDuration := 0
deriving DecidableEq, Repr

/-- Watcher contains the data of an individual url watcher service. -/
structure Watcher where
  URL : String
  Timeout : TimeDuration
  Interval : TimeDuration
  Cancel : Handle
  WaitGroup : Handle
  Metrics : Handle
deriving DecidableEq, Repr

/-- The allocation state of the Go heap: the next unused handle. -/
structure Heap where
  next : Handle
deriving DecidableEq, Repr

/-- The effect of `make(chan ...)` or of `&sync.WaitGroup{}`: a fresh handle. -/
def Heap.alloc (h : Heap) : Handle × Heap := (h.next, { next := h.next + 1 })

/-- NewWatcher returns a new Watcher struct; its Cancel channel is freshly made. -/
def NewWatcher (h : Heap) (url : String) (interval timeout : TimeDuration)
    (wg : Handle) (metrics : Handle) : Watcher × Heap :=
  let (c, h1) := h.alloc
  ({ URL := url, Interval := interval, Timeout := timeout,
     WaitGroup := wg, Cancel := c, Metrics := metrics }, h1)

/-! ## The probe (Watcher.CheckURL) -/

/-- A Go error value as far as the program looks at it: the name of its dynamic
type, which is what `fmt.Sprintf("%T", err)` prints, and its message. -/
structure GoError where
  typeName : String
  msg : String
deriving DecidableEq, Repr

/-- The value of `ctx.Err()` once the deadline of `context.WithTimeout` has
elapsed: `context.DeadlineExceeded`, of type `context.deadlineExceededError`. -/
def DeadlineExceeded : GoError :=
  { typeName := "context.deadlineExceededError", msg := "context deadline exceeded" }

/-- The timing marks taken around a round trip that produced a response:
`time.Since(start)` and the three spans recorded by the client trace. -/
structure Timings where
  total : TimeDuration
  dnsDone : TimeDuration
  tlsDone : TimeDuration
  connDone : TimeDuration
deriving DecidableEq, Repr

/-- The outcome of the single `http.DefaultTransport.RoundTrip(req)` call. -/
inductive RoundTripResult where
  | response (statusCode : Int) (t : Timings)
  | failure (err : GoError)
deriving DecidableEq, Repr

/-- CheckURL performs a GET request on the watcher's url; the outcome of the
round trip is the argument `rt`.  A failure whose error has the dynamic type
`context.deadlineExceededError` is turned into the zero result. -/
def CheckURL (w : Watcher) (rt : RoundTripResult) : Except GoError CheckResult :=
  match rt with
  | .failure err =>
    if err.typeName = "context.deadlineExceededError" then
      .ok { URL := w.URL }
    else
      .error err
  | .response statusCode t =>
    .ok { URL := w.URL, Code := statusCode, Duration := t.total,
          DNS := t.dnsDone, TLS := t.tlsDone, Conn := t.connDone }

/-! ## The result sink (WatcherManager.MetricsCatcher) -/

/-- A prometheus GaugeVec with the one label `url`: the value of the child
gauge of each label value, `none` while that child does not exist.  The values
the program stores are 0, 1 and `float64` of an int64 millisecond count, whose
magnitude is below 2^53, so every stored value is an integer held exactly. -/
abbrev GaugeVec := String → Option Int

/-- The effect of `g.WithLabelValues(url).Set(v)`. -/
def gaugeSet (g : GaugeVec) (url : String) (v : Int) : GaugeVec :=
  fun u => if u = url then some v else g u

/-- The two package-level gauge vectors. -/
structure Gauges where
  upGauge : GaugeVec
  responseTime : GaugeVec

/-- The gauges before any result has been consumed. -/
def Gauges.empty : Gauges := { upGauge := fun _ => none, responseTime := fun _ => none }

/-- The body of MetricsCatcher's loop for one received result `m`. -/
def catchResult (g : Gauges) (m : CheckResult) : Gauges :=
  let g1 : Gauges :=
    if m.Code = 200 then
      { g with upGauge := gaugeSet g.upGauge m.URL 1 }
    else
      { g with upGauge := gaugeSet g.upGauge m.URL 0 }
  { g1 with responseTime := gaugeSet g1.responseTime m.URL (Milliseconds m.Duration) }

/-- MetricsCatcher: receives from the Metrics channel until it is closed.  The
argument is the sequence of results the channel delivers before the close. -/
def MetricsCatcher (g : Gauges) : List CheckResult → Gauges
  | [] => g
  | m :: rest => MetricsCatcher (catchResult g m) rest

/-- The last result for url `u` in a sequence of results, if there is one. -/
def lastResultFor (u : String) (rs : List CheckResult) : Option CheckResult :=
  (rs.filter (fun r => r.URL = u)).getLast?

/-! ## The start command (cmd/start.go) -/

/-- The PreRunE of the start command, over the package variable `urls`. -/
def PreRunE (urls : List String) : Except String Unit :=
  if urls.length = 0 then
    .error "must provide urls to watch"
  else
    .ok ()

deriving instance DecidableEq for Except

/-! ## Duration strings (the standard library's time.ParseDuration) -/

/-- The largest int64. -/
def maxInt64 : Int := 9223372036854775807

/-- The unitMap of package time: nanoseconds per unit. -/
def unitMap (u : String) : Option Int :=
  if u = "ns" then some 1
  else if u = "us" then some 1000
  else if u = "µs" then some 1000
  else if u = "μs" then some 1000
  else if u = "ms" then some 1000000
  else if u = "s" then some 1000000000
  else if u = "m" then some 60000000000
  else if u = "h" then some 3600000000000
  else none

/-- The leadingInt of package time: consumes the leading [0-9]* of the input,
starting from the accumulator `x`; `none` is the int64 overflow error. -/
def leadingInt : List Char → Int → Option (Int × List Char)
  | [], x => some (x, [])
  | c :: cs, x =>
    if c < '0' ∨ c > '9' then some (x, c :: cs)
    else if x > maxInt64 / 10 then none
    else
      let y := x * 10 + ((c.toNat : Int) - 48)
      if y > maxInt64 then none else leadingInt cs y

/-- The leadingFraction of package time: consumes the leading [0-9]* of the
input and returns the digits read as (x, scale); digits after an overflow are
consumed and dropped. -/
def leadingFraction : List Char → Int → Int → Bool → Int × Int × List Char
  | [], x, scale, _ => (x, scale, [])
  | c :: cs, x, scale, overflow =>
    if c < '0' ∨ c > '9' then (x, scale, c :: cs)
    else if overflow then leadingFraction cs x scale true
    else if x > maxInt64 / 10 then leadingFraction cs x scale true
    else
      let y := x * 10 + ((c.toNat : Int) - 48)
      if y > maxInt64 then leadingFraction cs x scale true
      else leadingFraction cs y (scale * 10) false

/-- The unit of a duration component: the characters up to the next '.' or digit. -/
def spanUnit : List Char → List Char × List Char
  | [] => ([], [])
  | c :: cs =>
    if c = '.' ∨ ('0' ≤ c ∧ c ≤ '9') then ([], c :: cs)
    else
      let (u, r) := spanUnit cs
      (c :: u, r)

/-- The loop of time.ParseDuration over the components
([0-9]*(\.[0-9]*)?[a-z]+)+ of the input, `d` being the sum so far.  Every round
consumes at least one character, so the length of the input is enough fuel.
The library adds the fractional part as int64(float64(f) * (float64(unit) / scale));
here it is the exact quotient, which is the same number whenever the input has
no fractional digits. -/
def parseComponents (orig : String) : Nat → List Char → Int → Except String Int
  | _, [], d => .ok d
  | 0, _ :: _, _ => .error ("time: invalid duration " ++ orig)
  | fuel + 1, c :: cs, d =>
    if ¬ (c = '.' ∨ ('0' ≤ c ∧ c ≤ '9')) then
      .error ("time: invalid duration " ++ orig)
    else
      match leadingInt (c :: cs) 0 with
      | none => .error ("time: invalid duration " ++ orig)
      | some (v, s1) =>
        let pre := decide ((c :: cs).length ≠ s1.length)
        let (f, scale, s2, post) :=
          match s1 with
          | '.' :: s1t =>
            let (f, scale, s2) := leadingFraction s1t 0 1 false
            (f, scale, s2, decide (s1t.length ≠ s2.length))
          | _ => ((0 : Int), (1 : Int), s1, false)
        if ¬ pre ∧ ¬ post then
          .error ("time: invalid duration " ++ orig)
        else
          let (u, s3) := spanUnit s2
          if u.length = 0 then
            .error ("time: missing unit in duration " ++ orig)
          else
            match unitMap (String.mk u) with
            | none =>
              .error ("time: unknown unit " ++ String.mk u ++ " in duration " ++ orig)
            | some unit =>
              if v > maxInt64 / unit then
                .error ("time: invalid duration " ++ orig)
              else
                let v1 := v * unit + (if f > 0 then f * unit / scale else 0)
                if v1 > maxInt64 then
                  .error ("time: invalid duration " ++ orig)
                else if d + v1 > maxInt64 then
                  .error ("time: invalid duration " ++ orig)
                else
                  parseComponents orig fuel s3 (d + v1)

/-- The time.ParseDuration of the Go standard library (the int64 version of
the Go releases the repository was written for): a signed sequence of decimal
numbers with unit suffixes, such as "300ms", "-1.5h" or "2h45m". -/
def ParseDuration (s : String) : Except String TimeDuration :=
  let cs := s.toList
  let (neg, cs1) :=
    match cs with
    | '-' :: t => (true, t)
    | '+' :: t => (false, t)
    | _ => (false, cs)
  if cs1 = ['0'] then .ok 0
  else if cs1 = [] then .error ("time: invalid duration " ++ s)
  else
    match parseComponents s cs1.length cs1 0 with
    | .error e => .error e
    | .ok d => .ok (if neg then -d else d)

/-! ## The manager (watcherman.go) -/

/-- WatcherManager handles multiple watcher services. -/
structure WatcherManager where
  Watchers : List Watcher
  Timeout : TimeDuration
  Interval : TimeDuration
  WaitGroup : Handle
  Metrics : Handle
  Port : Int
deriving DecidableEq, Repr

/-- NewWatcherManager validates inputs and returns a new manager.  `parse` is
the duration parser it calls (time.ParseDuration in the program). -/
def NewWatcherManager (parse : String → Except String TimeDuration) (h : Heap)
    (interval timeout : String) (port : Int) : Except String (WatcherManager × Heap) :=
  match parse interval with
  | .error _ => .error ("could not parse poll interval: " ++ interval)
  | .ok intervalDuration =>
    match parse timeout with
    | .error _ => .error ("could not parse poll timeout: " ++ timeout)
    | .ok timeoutDuration =>
      let (metrics, h1) := h.alloc
      let (wg, h2) := h1.alloc
      .ok ({ Watchers := [], Metrics := metrics, Interval := intervalDuration,
             Timeout := timeoutDuration, WaitGroup := wg, Port := port }, h2)

/-- AddWatcher creates a new Watcher from a url and registers it (the error it
returns is always nil). -/
def AddWatcher (wm : WatcherManager) (h : Heap) (url : String) : WatcherManager × Heap :=
  let (w, h1) := NewWatcher h url wm.Interval wm.Timeout wm.WaitGroup wm.Metrics
  ({ wm with Watchers := wm.Watchers ++ [w] }, h1)

/-- The registration loop of the start command: AddWatcher for each url in order. -/
def addWatchers (wm : WatcherManager) (h : Heap) : List String → WatcherManager × Heap
  | [] => (wm, h)
  | u :: rest =>
    let (wm1, h1) := AddWatcher wm h u
    addWatchers wm1 h1 rest

/-! ## The polling loop (Watcher.Run) -/

/-- Where the goroutine executing Run stands. -/
inductive RunPc where
  /-- blocked in the select of the for loop -/
  | atSelect
  /-- blocked in the send of `cres` on the Metrics channel -/
  | sending (cres : CheckResult)
  /-- Run has returned `err` (nil is `none`) -/
  | returned (err : Option GoError)
deriving DecidableEq, Repr

/-- The state of one execution of Run: where it stands, the number of CheckURL
calls made, the results whose send on Metrics has completed, and the number of
WaitGroup.Done calls made. -/
structure RunState where
  pc : RunPc
  checks : Nat
  sent : List CheckResult
  done : Nat
deriving DecidableEq, Repr

/-- The state of Run on entry to its loop. -/
def RunState.init : RunState := { pc := .atSelect, checks := 0, sent := [], done := 0 }

/-- The communications of the goroutine executing Run. -/
inductive RunEvent where
  /-- the select receives from the Cancel channel -/
  | cancel
  /-- the select receives from the ticker; `rt` is the outcome of the round
  trip of the CheckURL call that follows -/
  | tick (rt : RoundTripResult)
  /-- the send on the Metrics channel completes -/
  | sendDone
deriving DecidableEq, Repr

/-- One step of Run; `none` when the goroutine cannot take part in the event
where it stands.  The deferred WaitGroup.Done runs on both return paths. -/
def runStep (w : Watcher) (s : RunState) : RunEvent → Option RunState
  | .cancel =>
    match s.pc with
    | .atSelect => some { s with pc := .returned none, done := s.done + 1 }
    | _ => none
  | .tick rt =>
    match s.pc with
    | .atSelect =>
      match CheckURL w rt with
      | .error err =>
        some { s with pc := .returned (some err), checks := s.checks + 1, done := s.done + 1 }
      | .ok cres =>
        some { s with pc := .sending cres, checks := s.checks + 1 }
    | _ => none
  | .sendDone =>
    match s.pc with
    | .sending cres => some { s with pc := .atSelect, sent := s.sent ++ [cres] }
    | _ => none

/-- An execution of Run from state `s`: the events taken in order; `none` when
the sequence is not an execution. -/
def runFrom (w : Watcher) (s : RunState) : List RunEvent → Option RunState
  | [] => some s
  | ev :: rest =>
    match runStep w s ev with
    | none => none
    | some s1 => runFrom w s1 rest

/-- An execution of Run from its start. -/
def Run (w : Watcher) (evs : List RunEvent) : Option RunState :=
  runFrom w RunState.init evs

/-! ## The running system (WaitAndWatch, Stop, MetricsCatcher and the watchers) -/

/-- Where a call of WatcherManager.Stop stands. -/
inductive StopPc where
  /-- Stop has not been called -/
  | notCalled
  /-- the range loop is at index `i`: blocked in the send on the Cancel channel
  of `Watchers[i]`, or past the last watcher and about to close Metrics -/
  | atWatcher (i : Nat)
  /-- Stop has closed Metrics and returned -/
  | returned
deriving DecidableEq, Repr

/-- The state of the goroutines started by WaitAndWatch. -/
structure System where
  wm : WatcherManager
  /-- the execution of `Watchers[i].Run`, for each index i -/
  runs : List RunState
  stop : StopPc
  /-- whether the Metrics channel of the manager is closed -/
  metricsClosed : Bool
  /-- whether a send on the closed Metrics channel has happened (a panic) -/
  sendOnClosed : Bool
  /-- whether MetricsCatcher has returned -/
  catcherReturned : Bool
  /-- whether the server has been shut down, its hook calling WaitGroup.Done -/
  serverDown : Bool
  gauges : Gauges

/-- The state WaitAndWatch sets up: one Run per registered watcher, the
MetricsCatcher and the server started, Stop not called. -/
def WaitAndWatch (wm : WatcherManager) : System :=
  { wm := wm, runs := wm.Watchers.map (fun _ => RunState.init), stop := .notCalled,
    metricsClosed := false, sendOnClosed := false, catcherReturned := false,
    serverDown := false, gauges := Gauges.empty }

/-- The counter of the shared WaitGroup: one Add for the server, one per
watcher and one for MetricsCatcher, less the Done calls made. -/
def waitGroupCounter (s : System) : Int :=
  (if s.serverDown then 0 else 1)
    + (s.runs.map (fun r => (1 : Int) - (r.done : Int))).sum
    + (if s.catcherReturned then 0 else 1)

/-- The steps of the system. -/
inductive Action where
  /-- the ticker of watcher i fires and its Run calls CheckURL -/
  | tick (i : Nat) (rt : RoundTripResult)
  /-- MetricsCatcher receives the result watcher i is sending and updates the gauges -/
  | deliver (i : Nat)
  /-- watcher i, sending on Metrics, finds the channel closed -/
  | sendClosed (i : Nat)
  /-- Stop is called -/
  | callStop
  /-- the send of Stop on a Cancel channel is received by watcher j -/
  | cancel (j : Nat)
  /-- Stop, past the last watcher, closes Metrics and returns -/
  | closeMetrics
  /-- MetricsCatcher finds Metrics closed and returns -/
  | catcherExit
  /-- the server is shut down once Stop has returned -/
  | shutdown
deriving DecidableEq, Repr

/-- One step of the system; `none` when the action is not enabled.  A channel
operation needs both of its parties: a receive on an unbuffered channel pairs
with a send on the channel of the same handle. -/
def sysStep (s : System) : Action → Option System
  | .tick i rt =>
    match s.wm.Watchers[i]?, s.runs[i]? with
    | some w, some r =>
      match runStep w r (.tick rt) with
      | some r1 => some { s with runs := s.runs.set i r1 }
      | none => none
    | _, _ => none
  | .deliver i =>
    match s.wm.Watchers[i]?, s.runs[i]? with
    | some w, some r =>
      match r.pc with
      | .sending cres =>
        if w.Metrics = s.wm.Metrics ∧ s.metricsClosed = false ∧ s.catcherReturned = false then
          match runStep w r .sendDone with
          | some r1 => some { s with runs := s.runs.set i r1, gauges := catchResult s.gauges cres }
          | none => none
        else none
      | _ => none
    | _, _ => none
  | .sendClosed i =>
    match s.wm.Watchers[i]?, s.runs[i]? with
    | some w, some r =>
      match r.pc with
      | .sending _ =>
        if w.Metrics = s.wm.Metrics ∧ s.metricsClosed = true then
          some { s with sendOnClosed := true }
        else none
      | _ => none
    | _, _ => none
  | .callStop =>
    match s.stop with
    | .notCalled => some { s with stop := .atWatcher 0 }
    | _ => none
  | .cancel j =>
    match s.stop with
    | .atWatcher i =>
      match s.wm.Watchers[i]?, s.wm.Watchers[j]?, s.runs[j]? with
      | some wi, some wj, some r =>
        if wj.Cancel = wi.Cancel then
          match runStep wj r .cancel with
          | some r1 => some { s with runs := s.runs.set j r1, stop := .atWatcher (i + 1) }
          | none => none
        else none
      | _, _, _ => none
    | _ => none
  | .closeMetrics =>
    match s.stop with
    | .atWatcher i =>
      match s.wm.Watchers[i]? with
      | none => some { s with metricsClosed := true, stop := .returned }
      | some _ => none
    | _ => none
  | .catcherExit =>
    if s.metricsClosed = true ∧ s.catcherReturned = false then
      some { s with catcherReturned := true }
    else none
  | .shutdown =>
    match s.stop with
    | .returned => if s.serverDown = false then some { s with serverDown := true } else none
    | _ => none

/-- An execution of the system from state `s`; `none` when some action of the
sequence is not enabled where it is taken. -/
def sysFrom (s : System) : List Action → Option System
  | [] => some s
  | a :: rest =>
    match sysStep s a with
    | none => none
    | some s1 => sysFrom s1 rest

/-- The watchers that successive NewWatcher calls build for `urls` when the
next unused handle is `n`: one per url, in order, each with its own Cancel
channel. -/
def freshWatchers (interval timeout : TimeDuration) (wg metrics : Handle) :
    Handle → List String → List Watcher
  | _, [] => []
  | n, u :: rest =>
    { URL := u, Interval := interval, Timeout := timeout, WaitGroup := wg,
      Cancel := n, Metrics := metrics } :: freshWatchers interval timeout wg metrics (n + 1) rest

/-- The results that the CheckURL calls of the ticks among `evs` return, in order. -/
def tickResults (w : Watcher) : List RunEvent → List CheckResult
  | [] => []
  | .tick rt :: rest =>
    match CheckURL w rt with
    | .ok cres => cres :: tickResults w rest
    | .error _ => tickResults w rest
  | _ :: rest => tickResults w rest

/-- The number of ticks among `evs`. -/
def tickCount : List RunEvent → Nat
  | [] => 0
  | .tick _ :: rest => tickCount rest + 1
  | _ :: rest => tickCount rest

/-- The result whose send is under way where Run stands, if there is one. -/
def RunPc.inFlight : RunPc → List CheckResult
  | .sending cres => [cres]
  | _ => []

/-- The number of WaitGroup.Done calls an execution of Run standing at `pc` owes:
one once it has returned, none before. -/
def RunPc.doneOwed : RunPc → Nat
  | .returned _ => 1
  | _ => 0

/-- The invariant of the shutdown protocol: no send on the closed Metrics
channel has happened; Metrics is closed only once Stop has returned; the
watchers before the index Stop stands at have returned nil, that is, have
received their cancel signal; and once Stop has returned all of them have. -/
def stopInvariant (s : System) : Prop :=
  s.sendOnClosed = false ∧
  (s.metricsClosed = true → s.stop = .returned) ∧
  (∀ i, s.stop = .atWatcher i →
    ∀ (j : Nat) (r : RunState), j < i → s.runs[j]? = some r → r.pc = .returned none) ∧
  (s.stop = .returned →
    ∀ (j : Nat) (r : RunState), s.runs[j]? = some r → r.pc = .returned none)

/-- The invariant of the exits: MetricsCatcher returns only after Metrics is
closed, the server is shut down only after Stop has returned, and every Run has
called WaitGroup.Done once if it has returned and not at all otherwise. -/
def exitInvariant (s : System) : Prop :=
  (s.catcherReturned = true → s.metricsClosed = true) ∧
  (s.serverDown = true → s.stop = .returned) ∧
  (∀ (j : Nat) (r : RunState), s.runs[j]? = some r → r.done = r.pc.doneOwed)

/-! ## Theorems -/

theorem MetricsCatcher_append (g : Gauges) (rs : List CheckResult) (m : CheckResult) :
    MetricsCatcher g (rs ++ [m]) = catchResult (MetricsCatcher g rs) m := by
  induction rs generalizing g with
  | nil => rfl
  | cons r rest ih => simp [MetricsCatcher, ih]

theorem catchResult_upGauge (g : Gauges) (m : CheckResult) (u : String) :
    (catchResult g m).upGauge u =
      if u = m.URL then some (if m.Code = 200 then 1 else 0) else g.upGauge u := by
  unfold catchResult gaugeSet
  by_cases hc : m.Code = 200 <;> by_cases hu : u = m.URL <;> simp [hc, hu]

theorem catchResult_responseTime (g : Gauges) (m : CheckResult) (u : String) :
    (catchResult g m).responseTime u =
      if u = m.URL then some (Int.tdiv m.Duration 1000000) else g.responseTime u := by
  unfold catchResult gaugeSet Milliseconds
  by_cases hc : m.Code = 200 <;> by_cases hu : u = m.URL <;> simp [hc, hu]

theorem lastResultFor_append (u : String) (rs : List CheckResult) (m : CheckResult) :
    lastResultFor u (rs ++ [m]) = if m.URL = u then some m else lastResultFor u rs := by
  unfold lastResultFor
  by_cases h : m.URL = u
  · simp [List.filter_append, List.filter_cons, h]
  · simp [List.filter_append, List.filter_cons, h]

/-- The gauges after consuming `rs` from `g`: for the url `u`, the values of the
last result for `u`, or those of `g` when `rs` has no result for `u`. -/
theorem MetricsCatcher_from (g : Gauges) (rs : List CheckResult) (u : String) :
    (MetricsCatcher g rs).upGauge u =
        (match lastResultFor u rs with
         | some r => some (if r.Code = 200 then 1 else 0)
         | none => g.upGauge u) ∧
    (MetricsCatcher g rs).responseTime u =
        (match lastResultFor u rs with
         | some r => some (Int.tdiv r.Duration 1000000)
         | none => g.responseTime u) := by
  induction rs using List.reverseRecOn with
  | nil => simp [MetricsCatcher, lastResultFor]
  | append_singleton rs m ih =>
    rw [MetricsCatcher_append, catchResult_upGauge, catchResult_responseTime,
      lastResultFor_append]
    by_cases h : m.URL = u
    · simp [h]
    · have h2 : ¬ u = m.URL := fun e => h e.symm
      simp [h, h2, ih]

theorem lastResultFor_split (u : String) (pre post : List CheckResult) (r : CheckResult)
    (hr : r.URL = u) (hpost : ∀ x ∈ post, x.URL ≠ u) :
    lastResultFor u (pre ++ r :: post) = some r := by
  unfold lastResultFor
  have h1 : post.filter (fun x => decide (x.URL = u)) = [] := by
    rw [List.filter_eq_nil_iff]
    intro x hx
    simpa using hpost x hx
  have h2 : (pre ++ r :: post).filter (fun x => decide (x.URL = u))
      = pre.filter (fun x => decide (x.URL = u)) ++ [r] := by
    rw [List.filter_append, List.filter_cons, h1]
    simp [hr]
  rw [h2, List.getLast?_concat]

theorem lastResultFor_absent (u : String) (rs : List CheckResult)
    (h : ∀ x ∈ rs, x.URL ≠ u) : lastResultFor u rs = none := by
  unfold lastResultFor
  have h1 : rs.filter (fun x => decide (x.URL = u)) = [] := by
    rw [List.filter_eq_nil_iff]
    intro x hx
    simpa using h x hx
  rw [h1]
  rfl

/-- C1: MetricsCatcher, consuming the results `rs` in order from empty gauges,
leaves for every url `u` that occurs in `rs` the liveness gauge at 1 if the last
result for `u` has Code 200 and at 0 otherwise, and the latency gauge at that
result's Duration in whole milliseconds (truncated); a url that does not occur
has no gauge value; and consuming a result for another url leaves the gauges of
`u` as they were. -/
theorem MetricsCatcher_latest (rs : List CheckResult) (u : String) :
    (∀ pre r post, rs = pre ++ r :: post → r.URL = u → (∀ x ∈ post, x.URL ≠ u) →
      (MetricsCatcher Gauges.empty rs).upGauge u = some (if r.Code = 200 then 1 else 0) ∧
      (MetricsCatcher Gauges.empty rs).responseTime u = some (Int.tdiv r.Duration 1000000)) ∧
    ((∀ x ∈ rs, x.URL ≠ u) →
      (MetricsCatcher Gauges.empty rs).upGauge u = none ∧
      (MetricsCatcher Gauges.empty rs).responseTime u = none) ∧
    (∀ g m, m.URL ≠ u →
      (catchResult g m).upGauge u = g.upGauge u ∧
      (catchResult g m).responseTime u = g.responseTime u) := by
  refine ⟨?_, ?_, ?_⟩
  · intro pre r post hrs hr hpost
    have h := MetricsCatcher_from Gauges.empty rs u
    rw [hrs, lastResultFor_split u pre post r hr hpost] at h
    rw [hrs]
    exact h
  · intro habs
    have h := MetricsCatcher_from Gauges.empty rs u
    rw [lastResultFor_absent u rs habs] at h
    exact h
  · intro g m hm
    have h2 : ¬ u = m.URL := fun e => hm e.symm
    rw [catchResult_upGauge, catchResult_responseTime]
    simp [h2]

/-- C1 at a concrete sequence: a 200 for url "a" taking 105.9 ms, a 200 for
url "b", then a timeout result (Code 0) for "a". -/
theorem MetricsCatcher_latest_witness :
    ((MetricsCatcher Gauges.empty
        [{ URL := "a", Code := 200, Duration := 105900000 }, { URL := "b", Code := 200 },
         { URL := "a" }]).upGauge "a" = some 0 ∧
     (MetricsCatcher Gauges.empty
        [{ URL := "a", Code := 200, Duration := 105900000 }, { URL := "b", Code := 200 },
         { URL := "a" }]).responseTime "a" = some 0) ∧
    ((MetricsCatcher Gauges.empty
        [{ URL := "a", Code := 200, Duration := 105900000 }, { URL := "b", Code := 200 },
         { URL := "a" }]).upGauge "b" = some 1) ∧
    ((MetricsCatcher Gauges.empty
        [{ URL := "a", Code := 200, Duration := 105900000 }]).responseTime "a" = some 105) :=
  ⟨(MetricsCatcher_latest
      [{ URL := "a", Code := 200, Duration := 105900000 }, { URL := "b", Code := 200 },
       { URL := "a" }] "a").1
      [{ URL := "a", Code := 200, Duration := 105900000 }, { URL := "b", Code := 200 }]
      { URL := "a" } [] rfl rfl (by simp),
   ((MetricsCatcher_latest
      [{ URL := "a", Code := 200, Duration := 105900000 }, { URL := "b", Code := 200 },
       { URL := "a" }] "b").1
      [{ URL := "a", Code := 200, Duration := 105900000 }]
      { URL := "b", Code := 200 } [{ URL := "a" }] rfl rfl (by decide)).1,
   ((MetricsCatcher_latest [{ URL := "a", Code := 200, Duration := 105900000 }] "a").1
      [] { URL := "a", Code := 200, Duration := 105900000 } [] rfl rfl (by simp)).2⟩

/-- C2: the value CheckURL returns is fixed by the outcome of the round trip.
A failure with the deadline error gives no error and the result with the
watcher's URL, Code 0 and all four durations zero; a response with status code
`sc` gives no error and a result with the watcher's URL and Code `sc` (and the
measured timings); a failure with any other error `e` gives no result and the
error `e`. -/
theorem CheckURL_outcome (w : Watcher) :
    (∀ e : GoError, e.typeName = "context.deadlineExceededError" →
      CheckURL w (.failure e) =
        .ok { URL := w.URL, Code := 0, Duration := 0, DNS := 0, TLS := 0, Conn := 0 }) ∧
    (∀ (sc : Int) (t : Timings), ∃ r : CheckResult,
      CheckURL w (.response sc t) = .ok r ∧ r.URL = w.URL ∧ r.Code = sc ∧
        r.Duration = t.total ∧ r.DNS = t.dnsDone ∧ r.TLS = t.tlsDone ∧ r.Conn = t.connDone) ∧
    (∀ e : GoError, e.typeName ≠ "context.deadlineExceededError" →
      CheckURL w (.failure e) = .error e) := by
  refine ⟨?_, ?_, ?_⟩
  · intro e he
    simp [CheckURL, he]
  · intro sc t
    exact ⟨_, rfl, rfl, rfl, rfl, rfl, rfl, rfl⟩
  · intro e he
    simp [CheckURL, he]

/-- C2 at concrete outcomes: the deadline error, a 502 response after 105 ms,
and a refused connection. -/
theorem CheckURL_outcome_witness :
    CheckURL { URL := "http://x", Timeout := 20000000, Interval := 10000000000,
               Cancel := 0, WaitGroup := 1, Metrics := 2 } (.failure DeadlineExceeded)
      = .ok { URL := "http://x", Code := 0, Duration := 0, DNS := 0, TLS := 0, Conn := 0 } ∧
    (∃ r : CheckResult,
      CheckURL { URL := "http://x", Timeout := 20000000, Interval := 10000000000,
                 Cancel := 0, WaitGroup := 1, Metrics := 2 }
          (.response 502 { total := 105000000, dnsDone := 0, tlsDone := 0, connDone := 1000 })
        = .ok r ∧ r.URL = "http://x" ∧ r.Code = 502 ∧ r.Duration = 105000000 ∧
          r.DNS = 0 ∧ r.TLS = 0 ∧ r.Conn = 1000) ∧
    CheckURL { URL := "http://x", Timeout := 20000000, Interval := 10000000000,
               Cancel := 0, WaitGroup := 1, Metrics := 2 }
        (.failure { typeName := "*net.OpError", msg := "connection refused" })
      = .error { typeName := "*net.OpError", msg := "connection refused" } :=
  ⟨(CheckURL_outcome _).1 DeadlineExceeded rfl,
   (CheckURL_outcome _).2.1 502 { total := 105000000, dnsDone := 0, tlsDone := 0, connDone := 1000 },
   (CheckURL_outcome _).2.2 { typeName := "*net.OpError", msg := "connection refused" }
     (by decide)⟩

/-- C4: the PreRunE of the start command returns an error whenever the url list
is empty and nil whenever it has at least one url. -/
theorem PreRunE_rejects_empty (urls : List String) :
    (urls = [] → PreRunE urls = .error "must provide urls to watch") ∧
    (urls ≠ [] → PreRunE urls = .ok ()) := by
  constructor
  · intro h
    subst h
    rfl
  · intro h
    have hl : urls.length ≠ 0 := by
      intro h0
      exact h (List.length_eq_zero.mp h0)
    simp [PreRunE, hl]

/-- C4 at the empty list and at a list of one url. -/
theorem PreRunE_rejects_empty_witness :
    PreRunE [] = .error "must provide urls to watch" ∧
    PreRunE ["http://example.com"] = .ok () :=
  ⟨(PreRunE_rejects_empty []).1 rfl,
   (PreRunE_rejects_empty ["http://example.com"]).2 (by simp)⟩

/-- C3 as stated fails: the interval "0s" and the timeout "-5s" parse as the
durations 0 and -5s, neither of them positive, and NewWatcherManager returns a
manager with those durations and no error. -/
theorem NewWatcherManager_accepts_nonpositive :
    ParseDuration "0s" = .ok 0 ∧ ParseDuration "-5s" = .ok (-5000000000) ∧
    NewWatcherManager ParseDuration { next := 0 } "0s" "-5s" 80 =
      .ok ({ Watchers := [], Timeout := -5000000000, Interval := 0,
             WaitGroup := 1, Metrics := 0, Port := 80 }, { next := 2 }) ∧
    ¬ (∀ interval timeout : String,
        (∃ m, NewWatcherManager ParseDuration { next := 0 } interval timeout 80 = .ok m) →
        (∃ d, ParseDuration interval = .ok d ∧ 0 < d) ∧
        (∃ d, ParseDuration timeout = .ok d ∧ 0 < d)) := by
  refine ⟨by decide, by decide, by decide, ?_⟩
  intro h
  have hm : NewWatcherManager ParseDuration { next := 0 } "0s" "-5s" 80 =
      .ok ({ Watchers := [], Timeout := -5000000000, Interval := 0,
             WaitGroup := 1, Metrics := 0, Port := 80 }, { next := 2 }) := by decide
  obtain ⟨⟨d, hd, hpos⟩, _⟩ := h "0s" "-5s" ⟨_, hm⟩
  have h0 : ParseDuration "0s" = .ok 0 := by decide
  rw [h0] at hd
  have hd0 : (0 : Int) = d := Except.ok.inj hd
  rw [← hd0] at hpos
  exact absurd hpos (by decide)

/-- C3, amended: NewWatcherManager returns a manager without error exactly
when both strings parse as durations, of whatever sign: the manager then holds
the two parsed durations, the port, no watchers, and a fresh Metrics channel and
WaitGroup; if the interval does not parse, or the interval parses and the
timeout does not, it returns an error and no manager. -/
theorem NewWatcherManager_parses (parse : String → Except String TimeDuration) (h : Heap)
    (interval timeout : String) (port : Int) :
    (∀ di dt, parse interval = .ok di → parse timeout = .ok dt →
      NewWatcherManager parse h interval timeout port =
        .ok ({ Watchers := [], Timeout := dt, Interval := di, WaitGroup := h.next + 1,
               Metrics := h.next, Port := port }, { next := h.next + 2 })) ∧
    (∀ e, parse interval = .error e →
      NewWatcherManager parse h interval timeout port =
        .error ("could not parse poll interval: " ++ interval)) ∧
    (∀ di e, parse interval = .ok di → parse timeout = .error e →
      NewWatcherManager parse h interval timeout port =
        .error ("could not parse poll timeout: " ++ timeout)) ∧
    ((∃ m, NewWatcherManager parse h interval timeout port = .ok m) ↔
      (∃ di, parse interval = .ok di) ∧ (∃ dt, parse timeout = .ok dt)) := by
  refine ⟨?_, ?_, ?_, ?_⟩
  · intro di dt h1 h2
    simp [NewWatcherManager, h1, h2, Heap.alloc]
  · intro e h1
    simp [NewWatcherManager, h1]
  · intro di e h1 h2
    simp [NewWatcherManager, h1, h2]
  · cases h1 : parse interval with
    | error e => simp [NewWatcherManager, h1]
    | ok di =>
      cases h2 : parse timeout with
      | error e => simp [NewWatcherManager, h1, h2]
      | ok dt => simp [NewWatcherManager, h1, h2, Heap.alloc]

/-- C3, amended, at the inputs of the repository's test and at the defaults of
the start command. -/
theorem NewWatcherManager_parses_witness :
    NewWatcherManager ParseDuration { next := 0 } "asdf" "1s" 80 =
      .error "could not parse poll interval: asdf" ∧
    NewWatcherManager ParseDuration { next := 0 } "4ms" "ss43" 80 =
      .error "could not parse poll timeout: ss43" ∧
    NewWatcherManager ParseDuration { next := 0 } "30s" "2s" 80 =
      .ok ({ Watchers := [], Timeout := 2000000000, Interval := 30000000000,
             WaitGroup := 1, Metrics := 0, Port := 80 }, { next := 2 }) :=
  ⟨(NewWatcherManager_parses ParseDuration { next := 0 } "asdf" "1s" 80).2.1
      "time: invalid duration asdf" (by decide),
   (NewWatcherManager_parses ParseDuration { next := 0 } "4ms" "ss43" 80).2.2.1
      4000000 "time: invalid duration ss43" (by decide) (by decide),
   (NewWatcherManager_parses ParseDuration { next := 0 } "30s" "2s" 80).1
      30000000000 2000000000 (by decide) (by decide)⟩

theorem freshWatchers_length (i t : TimeDuration) (wg mt : Handle) (n : Handle)
    (urls : List String) : (freshWatchers i t wg mt n urls).length = urls.length := by
  induction urls generalizing n with
  | nil => rfl
  | cons u rest ih => simp [freshWatchers, ih]

theorem freshWatchers_URL (i t : TimeDuration) (wg mt : Handle) (n : Handle)
    (urls : List String) : (freshWatchers i t wg mt n urls).map (fun w => w.URL) = urls := by
  induction urls generalizing n with
  | nil => rfl
  | cons u rest ih => simp [freshWatchers, ih]

theorem freshWatchers_Cancel (i t : TimeDuration) (wg mt : Handle) (n : Handle)
    (urls : List String) :
    (freshWatchers i t wg mt n urls).map (fun w => w.Cancel) = List.range' n urls.length := by
  induction urls generalizing n with
  | nil => rfl
  | cons u rest ih => simp [freshWatchers, ih, List.range'_succ]

theorem freshWatchers_fields (i t : TimeDuration) (wg mt : Handle) (n : Handle)
    (urls : List String) :
    ∀ w ∈ freshWatchers i t wg mt n urls,
      w.Interval = i ∧ w.Timeout = t ∧ w.WaitGroup = wg ∧ w.Metrics = mt := by
  induction urls generalizing n with
  | nil => intro w hw; simp [freshWatchers] at hw
  | cons u rest ih =>
    intro w hw
    simp only [freshWatchers, List.mem_cons] at hw
    rcases hw with hw | hw
    · subst hw
      exact ⟨rfl, rfl, rfl, rfl⟩
    · exact ih (n + 1) w hw

theorem AddWatcher_eq (wm : WatcherManager) (h : Heap) (u : String) :
    AddWatcher wm h u =
      ({ wm with Watchers := wm.Watchers ++
          [{ URL := u, Interval := wm.Interval, Timeout := wm.Timeout,
             WaitGroup := wm.WaitGroup, Cancel := h.next, Metrics := wm.Metrics }] },
       { next := h.next + 1 }) := rfl

theorem addWatchers_eq (wm : WatcherManager) (h : Heap) (urls : List String) :
    addWatchers wm h urls =
      ({ wm with Watchers := wm.Watchers ++
          freshWatchers wm.Interval wm.Timeout wm.WaitGroup wm.Metrics h.next urls },
       { next := h.next + urls.length }) := by
  induction urls generalizing wm h with
  | nil => simp [addWatchers, freshWatchers]
  | cons u rest ih =>
    rw [addWatchers, AddWatcher_eq]
    simp only []
    rw [ih]
    simp [freshWatchers, List.append_assoc, Nat.add_assoc, Nat.add_comm 1]

theorem addWatchers_concat (wm : WatcherManager) (h : Heap) (urls : List String) (u : String) :
    addWatchers wm h (urls ++ [u]) =
      AddWatcher (addWatchers wm h urls).1 (addWatchers wm h urls).2 u := by
  induction urls generalizing wm h with
  | nil => simp [addWatchers]
  | cons v rest ih =>
    simp only [List.cons_append, addWatchers]
    exact ih _ _

/-- C5: on a manager built by NewWatcherManager, registering the urls one by
one with AddWatcher leaves in Watchers exactly one Watcher per url, in
registration order, each carrying the manager's Interval, Timeout, Metrics
channel and WaitGroup; every single AddWatcher call appends one Watcher for its
url to the list and keeps the earlier entries, and registering `urls` and then
`u` is one more AddWatcher call after registering `urls`. -/
theorem AddWatcher_registers (parse : String → Except String TimeDuration) (h : Heap)
    (interval timeout : String) (port : Int) (wm0 : WatcherManager) (h0 : Heap)
    (urls : List String)
    (hnew : NewWatcherManager parse h interval timeout port = .ok (wm0, h0)) :
    ((addWatchers wm0 h0 urls).1.Watchers.map (fun w => w.URL) = urls) ∧
    ((addWatchers wm0 h0 urls).1.Watchers.length = urls.length) ∧
    (∀ w ∈ (addWatchers wm0 h0 urls).1.Watchers,
      w.Interval = (addWatchers wm0 h0 urls).1.Interval ∧
      w.Timeout = (addWatchers wm0 h0 urls).1.Timeout ∧
      w.Metrics = (addWatchers wm0 h0 urls).1.Metrics ∧
      w.WaitGroup = (addWatchers wm0 h0 urls).1.WaitGroup) ∧
    ((addWatchers wm0 h0 urls).1.Interval = wm0.Interval ∧
      (addWatchers wm0 h0 urls).1.Timeout = wm0.Timeout ∧
      (addWatchers wm0 h0 urls).1.Metrics = wm0.Metrics ∧
      (addWatchers wm0 h0 urls).1.WaitGroup = wm0.WaitGroup) ∧
    (∀ (m : WatcherManager) (hp : Heap) (u : String), ∃ w : Watcher,
      (AddWatcher m hp u).1.Watchers = m.Watchers ++ [w] ∧
      (AddWatcher m hp u).1.Watchers.length = m.Watchers.length + 1 ∧
      w.URL = u ∧ w.Interval = m.Interval ∧ w.Timeout = m.Timeout ∧
      w.Metrics = m.Metrics ∧ w.WaitGroup = m.WaitGroup) ∧
    (∀ u : String, addWatchers wm0 h0 (urls ++ [u]) =
      AddWatcher (addWatchers wm0 h0 urls).1 (addWatchers wm0 h0 urls).2 u) := by
  have hempty : wm0.Watchers = [] := by
    unfold NewWatcherManager at hnew
    cases h1 : parse interval with
    | error e => simp [h1] at hnew
    | ok di =>
      cases h2 : parse timeout with
      | error e => simp [h1, h2] at hnew
      | ok dt =>
        simp [h1, h2, Heap.alloc] at hnew
        rw [← hnew.1]
  have heq := addWatchers_eq wm0 h0 urls
  rw [hempty, List.nil_append] at heq
  refine ⟨?_, ?_, ?_, ?_, ?_, ?_⟩
  · rw [heq]
    exact freshWatchers_URL _ _ _ _ _ _
  · rw [heq]
    exact freshWatchers_length _ _ _ _ _ _
  · rw [heq]
    intro w hw
    obtain ⟨a, b, c, d⟩ := freshWatchers_fields _ _ _ _ _ _ w hw
    exact ⟨a, b, d, c⟩
  · rw [heq]
    exact ⟨rfl, rfl, rfl, rfl⟩
  · intro m hp u
    rw [AddWatcher_eq]
    exact ⟨_, rfl, by simp, rfl, rfl, rfl, rfl, rfl⟩
  · intro u
    exact addWatchers_concat wm0 h0 urls u

/-- C5 at the manager of the repository's test, with two urls registered. -/
theorem AddWatcher_registers_witness :
    (addWatchers { Watchers := [], Timeout := 1000000000, Interval := 1000000000,
                   WaitGroup := 1, Metrics := 0, Port := 8080 } { next := 2 }
        ["http://example.com", "http://example.org"]).1.Watchers.map (fun w => w.URL)
      = ["http://example.com", "http://example.org"] :=
  (AddWatcher_registers ParseDuration { next := 0 } "1s" "1s" 8080
    { Watchers := [], Timeout := 1000000000, Interval := 1000000000,
      WaitGroup := 1, Metrics := 0, Port := 8080 } { next := 2 }
    ["http://example.com", "http://example.org"] (by decide)).1

theorem runFrom_append (w : Watcher) (s : RunState) (a b : List RunEvent) :
    runFrom w s (a ++ b) = (runFrom w s a).bind (fun s1 => runFrom w s1 b) := by
  induction a generalizing s with
  | nil => rfl
  | cons ev rest ih =>
    simp only [List.cons_append, runFrom]
    cases h : runStep w s ev with
    | none => rfl
    | some s1 => exact ih s1

theorem runStep_returned (w : Watcher) (s : RunState) (err : Option GoError)
    (hs : s.pc = .returned err) (ev : RunEvent) : runStep w s ev = none := by
  cases ev <;> simp [runStep, hs]

theorem runFrom_returned (w : Watcher) (s s2 : RunState) (err : Option GoError)
    (hs : s.pc = .returned err) (evs : List RunEvent) (h : runFrom w s evs = some s2) :
    evs = [] ∧ s2 = s := by
  cases evs with
  | nil =>
    simp only [runFrom, Option.some.injEq] at h
    exact ⟨rfl, h.symm⟩
  | cons ev rest =>
    simp [runFrom, runStep_returned w s err hs ev] at h

/-- What one step of Run does to the counters: in the three possible cases. -/
theorem runStep_cases (w : Watcher) (s s1 : RunState) (ev : RunEvent)
    (h : runStep w s ev = some s1) :
    (ev = .cancel ∧ s.pc = .atSelect ∧
      s1 = { s with pc := .returned none, done := s.done + 1 }) ∨
    (∃ rt cres, ev = .tick rt ∧ s.pc = .atSelect ∧ CheckURL w rt = .ok cres ∧
      s1 = { s with pc := .sending cres, checks := s.checks + 1 }) ∨
    (∃ rt err, ev = .tick rt ∧ s.pc = .atSelect ∧ CheckURL w rt = .error err ∧
      s1 = { s with pc := .returned (some err), checks := s.checks + 1, done := s.done + 1 }) ∨
    (∃ cres, ev = .sendDone ∧ s.pc = .sending cres ∧
      s1 = { s with pc := .atSelect, sent := s.sent ++ [cres] }) := by
  cases ev with
  | cancel =>
    cases hp : s.pc with
    | atSelect =>
      simp only [runStep, hp, Option.some.injEq] at h
      exact Or.inl ⟨rfl, rfl, h.symm⟩
    | sending c => simp [runStep, hp] at h
    | returned e => simp [runStep, hp] at h
  | tick rt =>
    cases hp : s.pc with
    | atSelect =>
      cases hc : CheckURL w rt with
      | ok cres =>
        simp only [runStep, hp, hc, Option.some.injEq] at h
        exact Or.inr (Or.inl ⟨rt, cres, rfl, rfl, hc, h.symm⟩)
      | error err =>
        simp only [runStep, hp, hc, Option.some.injEq] at h
        exact Or.inr (Or.inr (Or.inl ⟨rt, err, rfl, rfl, hc, h.symm⟩))
    | sending c => simp [runStep, hp] at h
    | returned e => simp [runStep, hp] at h
  | sendDone =>
    cases hp : s.pc with
    | atSelect => simp [runStep, hp] at h
    | sending c =>
      simp only [runStep, hp, Option.some.injEq] at h
      exact Or.inr (Or.inr (Or.inr ⟨c, rfl, rfl, h.symm⟩))
    | returned e => simp [runStep, hp] at h

/-- The counters along an execution of Run: every tick is one CheckURL call,
and the results sent or being sent are the results those calls returned. -/
theorem runFrom_account (w : Watcher) (evs : List RunEvent) (s s2 : RunState)
    (h : runFrom w s evs = some s2) :
    s2.checks = s.checks + tickCount evs ∧
    s2.sent ++ s2.pc.inFlight = s.sent ++ s.pc.inFlight ++ tickResults w evs ∧
    s2.done + s.pc.doneOwed = s.done + s2.pc.doneOwed := by
  induction evs generalizing s with
  | nil =>
    simp only [runFrom, Option.some.injEq] at h
    subst h
    simp [tickCount, tickResults]
  | cons ev rest ih =>
    simp only [runFrom] at h
    cases hstep : runStep w s ev with
    | none => simp [hstep] at h
    | some s1 =>
      rw [hstep] at h
      obtain ⟨ih1, ih2, ih3⟩ := ih s1 h
      rcases runStep_cases w s s1 ev hstep with
        ⟨hev, hp, hs1⟩ | ⟨rt, cres, hev, hp, hc, hs1⟩ | ⟨rt, err, hev, hp, hc, hs1⟩ |
        ⟨cres, hev, hp, hs1⟩
      · subst hev hs1
        simp only [RunPc.inFlight, RunPc.doneOwed, tickCount, tickResults, hp] at *
        refine ⟨ih1, ?_, by omega⟩
        simpa using ih2
      · subst hev hs1
        simp only [RunPc.inFlight, RunPc.doneOwed, tickCount, tickResults, hp, hc] at *
        refine ⟨by omega, ?_, by omega⟩
        simpa using ih2
      · subst hev hs1
        simp only [RunPc.inFlight, RunPc.doneOwed, tickCount, tickResults, hp, hc] at *
        refine ⟨by omega, ?_, by omega⟩
        simpa using ih2
      · subst hev hs1
        simp only [RunPc.inFlight, RunPc.doneOwed, tickCount, tickResults, hp] at *
        refine ⟨ih1, ?_, by omega⟩
        simpa using ih2

/-- C6: in every execution of Run, a tick taken at the select is handled thus.
If CheckURL returns a result `cres`, the zero result of a soft timeout included,
Run goes on to send `cres` on Metrics, nothing else can happen until that send
completes, and after it Run is back at the select with exactly `cres` added to
what it has sent; if CheckURL returns an error `err`, Run sends nothing, returns
`err`, and takes no further step, so makes no further probe.  Along a whole
execution the CheckURL calls are the ticks and the results sent, or being
sent, are the results of those calls in order. -/
theorem Run_tick (w : Watcher) (s : RunState) (rt : RoundTripResult)
    (hs : s.pc = .atSelect) :
    (∀ cres, CheckURL w rt = .ok cres →
      runFrom w s [.tick rt] = some { s with pc := .sending cres, checks := s.checks + 1 } ∧
      runFrom w s [.tick rt, .sendDone] =
        some { s with pc := .atSelect, checks := s.checks + 1, sent := s.sent ++ [cres] } ∧
      (∀ ev s1, runFrom w s [.tick rt, ev] = some s1 → ev = .sendDone)) ∧
    (∀ e : GoError, e.typeName = "context.deadlineExceededError" → rt = .failure e →
      runFrom w s [.tick rt, .sendDone] =
        some { s with pc := .atSelect, checks := s.checks + 1,
                      sent := s.sent ++ [{ URL := w.URL, Code := 0 }] }) ∧
    (∀ err, CheckURL w rt = .error err →
      runFrom w s [.tick rt] =
        some { s with pc := .returned (some err), checks := s.checks + 1,
                      done := s.done + 1 } ∧
      (∀ evs s1, runFrom w s (.tick rt :: evs) = some s1 →
        evs = [] ∧ s1.sent = s.sent ∧ s1.checks = s.checks + 1)) ∧
    (∀ evs s2, Run w evs = some s2 →
      s2.checks = tickCount evs ∧ s2.sent ++ s2.pc.inFlight = tickResults w evs) := by
  refine ⟨?_, ?_, ?_, ?_⟩
  · intro cres hc
    refine ⟨by simp [runFrom, runStep, hs, hc], by simp [runFrom, runStep, hs, hc], ?_⟩
    intro ev s1 h
    cases ev with
    | cancel => simp [runFrom, runStep, hs, hc] at h
    | tick rt2 => simp [runFrom, runStep, hs, hc] at h
    | sendDone => rfl
  · intro e he hrt
    subst hrt
    simp [runFrom, runStep, hs, CheckURL, he]
  · intro err hc
    refine ⟨by simp [runFrom, runStep, hs, hc], ?_⟩
    intro evs s1 h
    have h1 : runStep w s (.tick rt) =
        some { s with pc := .returned (some err), checks := s.checks + 1,
                      done := s.done + 1 } := by
      simp [runStep, hs, hc]
    simp only [runFrom, h1] at h
    obtain ⟨h2, h3⟩ := runFrom_returned w _ s1 (some err) rfl evs h
    subst h3
    exact ⟨h2, rfl, rfl⟩
  · intro evs s2 h
    obtain ⟨h1, h2, _⟩ := runFrom_account w evs RunState.init s2 h
    constructor
    · simpa [RunState.init] using h1
    · simpa [RunState.init, RunPc.inFlight] using h2

/-- C6 at a watcher whose first probe gets a 200 response: the result is sent
and Run is back at the select. -/
theorem Run_tick_witness :
    runFrom { URL := "http://x", Timeout := 2000000000, Interval := 500000000,
              Cancel := 2, WaitGroup := 1, Metrics := 0 } RunState.init
        [.tick (.response 200 { total := 100000000, dnsDone := 0, tlsDone := 0, connDone := 0 }),
         .sendDone]
      = some { pc := .atSelect, checks := 1,
               sent := [{ URL := "http://x", Code := 200, Duration := 100000000 }], done := 0 } :=
  ((Run_tick { URL := "http://x", Timeout := 2000000000, Interval := 500000000,
               Cancel := 2, WaitGroup := 1, Metrics := 0 } RunState.init
      (.response 200 { total := 100000000, dnsDone := 0, tlsDone := 0, connDone := 0 }) rfl).1
    { URL := "http://x", Code := 200, Duration := 100000000 } rfl).2.1

/-- C7: in every execution of Run, the receipt of the cancel signal is the last
step: Run was at the select, it returns nil, and no CheckURL call and no send on
Metrics is made with or after it; the receipt is possible whenever Run is at the
select, whatever else is ready there; and WaitGroup.Done has been called exactly
once when Run has returned, by cancellation or with a probe error, and not at
all before, a returned Run taking no further step. -/
theorem Run_cancel (w : Watcher) :
    (∀ pre post s, Run w (pre ++ .cancel :: post) = some s →
      post = [] ∧ s.pc = .returned none ∧ s.done = 1 ∧
      ∃ s1, Run w pre = some s1 ∧ s1.pc = .atSelect ∧
        s.checks = s1.checks ∧ s.sent = s1.sent) ∧
    (∀ evs s1, Run w evs = some s1 → s1.pc = .atSelect →
      Run w (evs ++ [.cancel]) = some { s1 with pc := .returned none, done := s1.done + 1 }) ∧
    (∀ evs s, Run w evs = some s → s.done = s.pc.doneOwed) ∧
    (∀ evs s err, Run w evs = some s → s.pc = .returned err →
      s.done = 1 ∧ ∀ more s2, runFrom w s more = some s2 → more = [] ∧ s2 = s) := by
  have hdone : ∀ evs s, Run w evs = some s → s.done = s.pc.doneOwed := by
    intro evs s h
    obtain ⟨_, _, h3⟩ := runFrom_account w evs RunState.init s h
    simpa [RunState.init, RunPc.doneOwed] using h3
  refine ⟨?_, ?_, hdone, ?_⟩
  · intro pre post s h
    have h0 := h
    unfold Run at h
    rw [runFrom_append] at h
    cases hpre : runFrom w RunState.init pre with
    | none => simp [hpre] at h
    | some s1 =>
      simp only [hpre, Option.bind, runFrom] at h
      cases hstep : runStep w s1 .cancel with
      | none => simp [hstep] at h
      | some s2 =>
        rw [hstep] at h
        rcases runStep_cases w s1 s2 .cancel hstep with
          ⟨_, hp, hs2⟩ | ⟨rt, cres, hev, _⟩ | ⟨rt, err, hev, _⟩ | ⟨cres, hev, _⟩
        · have hret : s2.pc = .returned none := by rw [hs2]
          obtain ⟨hpost, hs⟩ := runFrom_returned w s2 s none hret post h
          subst hs
          have hd := hdone _ _ h0
          rw [hret] at hd
          refine ⟨hpost, hret, hd, s1, hpre, hp, ?_, ?_⟩
          · rw [hs2]
          · rw [hs2]
        · cases hev
        · cases hev
        · cases hev
  · intro evs s1 h hp
    unfold Run at h ⊢
    rw [runFrom_append, h]
    simp [Option.bind, runFrom, runStep, hp]
  · intro evs s err h hp
    have hd := hdone evs s h
    rw [hp] at hd
    exact ⟨hd, fun more s2 hm => runFrom_returned w s s2 err hp more hm⟩

/-- C7 at a watcher that is cancelled after one completed probe. -/
theorem Run_cancel_witness :
    Run { URL := "http://x", Timeout := 2000000000, Interval := 500000000,
          Cancel := 2, WaitGroup := 1, Metrics := 0 }
        ([.tick (.response 200 { total := 100000000, dnsDone := 0, tlsDone := 0, connDone := 0 }),
          .sendDone] ++ [.cancel])
      = some { pc := .returned none, checks := 1,
               sent := [{ URL := "http://x", Code := 200, Duration := 100000000 }], done := 1 } :=
  (Run_cancel { URL := "http://x", Timeout := 2000000000, Interval := 500000000,
                Cancel := 2, WaitGroup := 1, Metrics := 0 }).2.1
    [.tick (.response 200 { total := 100000000, dnsDone := 0, tlsDone := 0, connDone := 0 }),
     .sendDone]
    { pc := .atSelect, checks := 1,
      sent := [{ URL := "http://x", Code := 200, Duration := 100000000 }], done := 0 }
    rfl rfl

theorem sysStep_tick (s s1 : System) (i : Nat) (rt : RoundTripResult)
    (h : sysStep s (.tick i rt) = some s1) :
    ∃ w r r1, s.wm.Watchers[i]? = some w ∧ s.runs[i]? = some r ∧
      runStep w r (.tick rt) = some r1 ∧ s1 = { s with runs := s.runs.set i r1 } := by
  simp only [sysStep] at h
  split at h
  · next w r hw hr =>
    split at h
    · next r1 hstep =>
      exact ⟨w, r, r1, hw, hr, hstep, (Option.some.inj h).symm⟩
    · cases h
  · cases h

theorem sysStep_deliver (s s1 : System) (i : Nat)
    (h : sysStep s (.deliver i) = some s1) :
    ∃ w r cres r1, s.wm.Watchers[i]? = some w ∧ s.runs[i]? = some r ∧
      r.pc = .sending cres ∧ w.Metrics = s.wm.Metrics ∧ s.metricsClosed = false ∧
      s.catcherReturned = false ∧ runStep w r .sendDone = some r1 ∧
      s1 = { s with runs := s.runs.set i r1, gauges := catchResult s.gauges cres } := by
  simp only [sysStep] at h
  split at h
  · next w r hw hr =>
    split at h
    · next cres hpc =>
      split at h
      · next hc =>
        split at h
        · next r1 hstep =>
          exact ⟨w, r, cres, r1, hw, hr, hpc, hc.1, hc.2.1, hc.2.2, hstep,
            (Option.some.inj h).symm⟩
        · cases h
      · cases h
    · cases h
  · cases h

theorem sysStep_sendClosed (s s1 : System) (i : Nat)
    (h : sysStep s (.sendClosed i) = some s1) :
    ∃ w r cres, s.wm.Watchers[i]? = some w ∧ s.runs[i]? = some r ∧
      r.pc = .sending cres ∧ s.metricsClosed = true ∧
      s1 = { s with sendOnClosed := true } := by
  simp only [sysStep] at h
  split at h
  · next w r hw hr =>
    split at h
    · next cres hpc =>
      split at h
      · next hc => exact ⟨w, r, cres, hw, hr, hpc, hc.2, (Option.some.inj h).symm⟩
      · cases h
    · cases h
  · cases h

theorem sysStep_callStop (s s1 : System) (h : sysStep s .callStop = some s1) :
    s.stop = .notCalled ∧ s1 = { s with stop := .atWatcher 0 } := by
  simp only [sysStep] at h
  split at h
  · next hst => exact ⟨hst, (Option.some.inj h).symm⟩
  · cases h

theorem sysStep_cancel (s s1 : System) (j : Nat) (h : sysStep s (.cancel j) = some s1) :
    ∃ i wi wj r r1, s.stop = .atWatcher i ∧ s.wm.Watchers[i]? = some wi ∧
      s.wm.Watchers[j]? = some wj ∧ s.runs[j]? = some r ∧ wj.Cancel = wi.Cancel ∧
      runStep wj r .cancel = some r1 ∧
      s1 = { s with runs := s.runs.set j r1, stop := .atWatcher (i + 1) } := by
  simp only [sysStep] at h
  split at h
  · next i hst =>
    split at h
    · next wi wj r hwi hwj hr =>
      split at h
      · next hc =>
        split at h
        · next r1 hstep =>
          exact ⟨i, wi, wj, r, r1, hst, hwi, hwj, hr, hc, hstep, (Option.some.inj h).symm⟩
        · cases h
      · cases h
    · cases h
  · cases h

theorem sysStep_closeMetrics (s s1 : System) (h : sysStep s .closeMetrics = some s1) :
    ∃ i, s.stop = .atWatcher i ∧ s.wm.Watchers[i]? = none ∧
      s1 = { s with metricsClosed := true, stop := .returned } := by
  simp only [sysStep] at h
  split at h
  · next i hst =>
    split at h
    · next hw => exact ⟨i, hst, hw, (Option.some.inj h).symm⟩
    · cases h
  · cases h

theorem sysStep_catcherExit (s s1 : System) (h : sysStep s .catcherExit = some s1) :
    s.metricsClosed = true ∧ s.catcherReturned = false ∧
      s1 = { s with catcherReturned := true } := by
  simp only [sysStep] at h
  split at h
  · next hc => exact ⟨hc.1, hc.2, (Option.some.inj h).symm⟩
  · cases h

theorem sysStep_shutdown (s s1 : System) (h : sysStep s .shutdown = some s1) :
    s.stop = .returned ∧ s.serverDown = false ∧ s1 = { s with serverDown := true } := by
  simp only [sysStep] at h
  split at h
  · next hst =>
    split at h
    · next hd => exact ⟨hst, hd, (Option.some.inj h).symm⟩
    · cases h
  · cases h

theorem cancel_index (ws : List Watcher) (hnd : (ws.map (fun w => w.Cancel)).Nodup)
    (i j : Nat) (wi wj : Watcher) (hi : ws[i]? = some wi) (hj : ws[j]? = some wj)
    (hc : wj.Cancel = wi.Cancel) : j = i := by
  have h1 : (ws.map (fun w => w.Cancel))[i]? = some wi.Cancel := by
    rw [List.getElem?_map, hi]; rfl
  have h2 : (ws.map (fun w => w.Cancel))[j]? = some wi.Cancel := by
    rw [List.getElem?_map, hj, ← hc]; rfl
  rw [List.getElem?_eq_some] at h1 h2
  obtain ⟨b1, e1⟩ := h1
  obtain ⟨b2, e2⟩ := h2
  exact (List.Nodup.getElem_inj_iff hnd).mp (e2.trans e1.symm)

theorem runStep_cancel_pc (w : Watcher) (r r1 : RunState)
    (h : runStep w r .cancel = some r1) : r1.pc = .returned none := by
  rcases runStep_cases w r r1 .cancel h with
    ⟨_, _, hs⟩ | ⟨rt, cres, hev, _⟩ | ⟨rt, err, hev, _⟩ | ⟨cres, hev, _⟩
  · rw [hs]
  · cases hev
  · cases hev
  · cases hev

/-- A step of the watcher at index `i` keeps every fact of the form "the
watchers at the indices in `C` have returned nil": a watcher that has returned
takes no step. -/
theorem set_keeps_returned (runs : List RunState) (i : Nat) (w : Watcher)
    (r r1 : RunState) (ev : RunEvent) (hr : runs[i]? = some r)
    (hstep : runStep w r ev = some r1) (C : Nat → Prop)
    (hall : ∀ (j : Nat) (q : RunState), C j → runs[j]? = some q → q.pc = .returned none) :
    ∀ (j : Nat) (q : RunState), C j → (runs.set i r1)[j]? = some q →
      q.pc = .returned none := by
  intro j q hc hj
  by_cases hij : i = j
  · subst hij
    have hret := hall i r hc hr
    rw [runStep_returned w r none hret ev] at hstep
    cases hstep
  · rw [List.getElem?_set_ne hij] at hj
    exact hall j q hc hj

/-- A watcher that has returned stays as it is under every step of the system. -/
theorem returned_frozen_step (s s1 : System) (a : Action) (i : Nat) (r : RunState)
    (err : Option GoError) (hr : s.runs[i]? = some r) (hpc : r.pc = .returned err)
    (h : sysStep s a = some s1) : s1.runs[i]? = some r := by
  have key : ∀ (k : Nat) (w : Watcher) (q q1 : RunState) (ev : RunEvent),
      s.runs[k]? = some q → runStep w q ev = some q1 →
      (s.runs.set k q1)[i]? = some r := by
    intro k w q q1 ev hq hstep
    by_cases hki : k = i
    · subst hki
      rw [hr] at hq
      cases hq
      rw [runStep_returned w r err hpc ev] at hstep
      cases hstep
    · rw [List.getElem?_set_ne hki]
      exact hr
  cases a with
  | tick k rt =>
    obtain ⟨w, q, q1, _, hq, hstep, hs1⟩ := sysStep_tick s s1 k rt h
    rw [hs1]
    exact key k w q q1 _ hq hstep
  | deliver k =>
    obtain ⟨w, q, cres, q1, _, hq, _, _, _, _, hstep, hs1⟩ := sysStep_deliver s s1 k h
    rw [hs1]
    exact key k w q q1 _ hq hstep
  | sendClosed k =>
    obtain ⟨w, q, cres, _, _, _, _, hs1⟩ := sysStep_sendClosed s s1 k h
    rw [hs1]
    exact hr
  | callStop =>
    obtain ⟨_, hs1⟩ := sysStep_callStop s s1 h
    rw [hs1]
    exact hr
  | cancel k =>
    obtain ⟨n, wi, wj, q, q1, _, _, _, hq, _, hstep, hs1⟩ := sysStep_cancel s s1 k h
    rw [hs1]
    exact key k wj q q1 _ hq hstep
  | closeMetrics =>
    obtain ⟨n, _, _, hs1⟩ := sysStep_closeMetrics s s1 h
    rw [hs1]
    exact hr
  | catcherExit =>
    obtain ⟨_, _, hs1⟩ := sysStep_catcherExit s s1 h
    rw [hs1]
    exact hr
  | shutdown =>
    obtain ⟨_, _, hs1⟩ := sysStep_shutdown s s1 h
    rw [hs1]
    exact hr

theorem returned_frozen (acts : List Action) (s s2 : System) (i : Nat) (r : RunState)
    (err : Option GoError) (hr : s.runs[i]? = some r) (hpc : r.pc = .returned err)
    (h : sysFrom s acts = some s2) : s2.runs[i]? = some r := by
  induction acts generalizing s with
  | nil =>
    simp only [sysFrom, Option.some.injEq] at h
    rw [← h]
    exact hr
  | cons a rest ih =>
    simp only [sysFrom] at h
    cases hstep : sysStep s a with
    | none => simp [hstep] at h
    | some s1 =>
      rw [hstep] at h
      exact ih s1 (returned_frozen_step s s1 a i r err hr hpc hstep) h

/-- Every step of the system keeps the invariant of the shutdown protocol,
the manager and the number of watchers, when the Cancel channels of the
watchers are pairwise distinct. -/
theorem stopInvariant_step (s s1 : System) (a : Action)
    (hnd : (s.wm.Watchers.map (fun w => w.Cancel)).Nodup)
    (hlen : s.runs.length = s.wm.Watchers.length)
    (hinv : stopInvariant s) (h : sysStep s a = some s1) :
    stopInvariant s1 ∧ s1.wm = s.wm ∧ s1.runs.length = s.runs.length := by
  obtain ⟨hpanic, hclosed, hat, hret⟩ := hinv
  cases a with
  | tick k rt =>
    obtain ⟨w, q, q1, _, hq, hstep, hs1⟩ := sysStep_tick s s1 k rt h
    subst hs1
    refine ⟨⟨hpanic, hclosed, ?_, ?_⟩, rfl, by simp⟩
    · intro i hi j r hj
      exact set_keeps_returned s.runs k w q q1 _ hq hstep (fun j => j < i)
        (fun j r hj hr => hat i hi j r hj hr) j r hj
    · intro hst j r
      exact set_keeps_returned s.runs k w q q1 _ hq hstep (fun _ => True)
        (fun j r _ hr => hret hst j r hr) j r trivial
  | deliver k =>
    obtain ⟨w, q, cres, q1, _, hq, _, _, _, _, hstep, hs1⟩ := sysStep_deliver s s1 k h
    subst hs1
    refine ⟨⟨hpanic, hclosed, ?_, ?_⟩, rfl, by simp⟩
    · intro i hi j r hj
      exact set_keeps_returned s.runs k w q q1 _ hq hstep (fun j => j < i)
        (fun j r hj hr => hat i hi j r hj hr) j r hj
    · intro hst j r
      exact set_keeps_returned s.runs k w q q1 _ hq hstep (fun _ => True)
        (fun j r _ hr => hret hst j r hr) j r trivial
  | sendClosed k =>
    obtain ⟨w, q, cres, _, hq, hpc, hcl, _⟩ := sysStep_sendClosed s s1 k h
    have hq2 := hret (hclosed hcl) k q hq
    rw [hpc] at hq2
    cases hq2
  | callStop =>
    obtain ⟨hst, hs1⟩ := sysStep_callStop s s1 h
    subst hs1
    refine ⟨⟨hpanic, ?_, ?_, ?_⟩, rfl, rfl⟩
    · intro hcl
      have := hclosed hcl
      rw [hst] at this
      cases this
    · intro i hi j r hj
      simp only [StopPc.atWatcher.injEq] at hi
      omega
    · intro hst2
      cases hst2
  | cancel k =>
    obtain ⟨i, wi, wj, q, q1, hst, hwi, hwj, hq, hc, hstep, hs1⟩ := sysStep_cancel s s1 k h
    subst hs1
    have hki : k = i := cancel_index s.wm.Watchers hnd i k wi wj hwi hwj hc
    subst hki
    have hq1 : q1.pc = .returned none := runStep_cancel_pc wj q q1 hstep
    have hklen : k < s.runs.length := by
      rw [List.getElem?_eq_some] at hq
      exact hq.1
    refine ⟨⟨hpanic, ?_, ?_, ?_⟩, rfl, by simp⟩
    · intro hcl
      have := hclosed hcl
      rw [hst] at this
      cases this
    · intro i2 hi2 j r hj hr
      simp only [StopPc.atWatcher.injEq] at hi2
      by_cases hjk : k = j
      · subst hjk
        rw [List.getElem?_set_self hklen] at hr
        cases hr
        exact hq1
      · rw [List.getElem?_set_ne hjk] at hr
        exact hat k hst j r (by omega) hr
    · intro hst2
      cases hst2
  | closeMetrics =>
    obtain ⟨i, hst, hw, hs1⟩ := sysStep_closeMetrics s s1 h
    subst hs1
    rw [List.getElem?_eq_none_iff] at hw
    refine ⟨⟨hpanic, fun _ => rfl, ?_, ?_⟩, rfl, rfl⟩
    · intro i2 hi2
      cases hi2
    · intro _ j r hr
      have hj : j < s.runs.length := by
        rw [List.getElem?_eq_some] at hr
        exact hr.1
      exact hat i hst j r (by omega) hr
  | catcherExit =>
    obtain ⟨_, _, hs1⟩ := sysStep_catcherExit s s1 h
    subst hs1
    exact ⟨⟨hpanic, hclosed, hat, hret⟩, rfl, rfl⟩
  | shutdown =>
    obtain ⟨_, _, hs1⟩ := sysStep_shutdown s s1 h
    subst hs1
    exact ⟨⟨hpanic, hclosed, hat, hret⟩, rfl, rfl⟩

theorem stopInvariant_sysFrom (acts : List Action) (s s2 : System)
    (hnd : (s.wm.Watchers.map (fun w => w.Cancel)).Nodup)
    (hlen : s.runs.length = s.wm.Watchers.length)
    (hinv : stopInvariant s) (h : sysFrom s acts = some s2) :
    stopInvariant s2 ∧ s2.wm = s.wm ∧ s2.runs.length = s.runs.length := by
  induction acts generalizing s with
  | nil =>
    simp only [sysFrom, Option.some.injEq] at h
    subst h
    exact ⟨hinv, rfl, rfl⟩
  | cons a rest ih =>
    simp only [sysFrom] at h
    cases hstep : sysStep s a with
    | none => simp [hstep] at h
    | some s1 =>
      rw [hstep] at h
      obtain ⟨hinv1, hwm1, hlen1⟩ := stopInvariant_step s s1 a hnd hlen hinv hstep
      obtain ⟨hinv2, hwm2, hlen2⟩ :=
        ih s1 (by rw [hwm1]; exact hnd) (by rw [hwm1, hlen1]; exact hlen) hinv1 h
      exact ⟨hinv2, hwm2.trans hwm1, hlen2.trans hlen1⟩

theorem sysFrom_append (s : System) (a b : List Action) :
    sysFrom s (a ++ b) = (sysFrom s a).bind (fun s1 => sysFrom s1 b) := by
  induction a generalizing s with
  | nil => rfl
  | cons x rest ih =>
    simp only [List.cons_append, sysFrom]
    cases h : sysStep s x with
    | none => rfl
    | some s1 => exact ih s1

/-- The manager that NewWatcherManager and the AddWatcher calls build: its
watchers have pairwise distinct Cancel channels. -/
theorem addWatchers_distinct (parse : String → Except String TimeDuration) (h : Heap)
    (interval timeout : String) (port : Int) (wm0 : WatcherManager) (h0 : Heap)
    (urls : List String)
    (hnew : NewWatcherManager parse h interval timeout port = .ok (wm0, h0)) :
    ((addWatchers wm0 h0 urls).1.Watchers.map (fun w => w.Cancel)).Nodup ∧
    (addWatchers wm0 h0 urls).1.Watchers.length = urls.length := by
  have hempty : wm0.Watchers = [] := by
    unfold NewWatcherManager at hnew
    cases h1 : parse interval with
    | error e => simp [h1] at hnew
    | ok di =>
      cases h2 : parse timeout with
      | error e => simp [h1, h2] at hnew
      | ok dt =>
        simp [h1, h2, Heap.alloc] at hnew
        rw [← hnew.1]
  have heq := addWatchers_eq wm0 h0 urls
  rw [hempty, List.nil_append] at heq
  rw [heq]
  simp only []
  rw [freshWatchers_Cancel, freshWatchers_length]
  exact ⟨List.nodup_range' _ _, rfl⟩

/-- C8: in every execution of the system that WaitAndWatch starts for a
manager built by NewWatcherManager and AddWatcher, the Metrics channel is
closed only when every registered watcher has received its cancel signal and
returned; while Stop stands at watcher `i` the channel is open and the
watchers before `i` have received theirs; a watcher that has returned stays as
it is, so sends nothing more; and a send on the closed Metrics channel has not
happened and cannot happen next. -/
theorem Stop_closes_after_cancels (parse : String → Except String TimeDuration) (h : Heap)
    (interval timeout : String) (port : Int) (wm0 : WatcherManager) (h0 : Heap)
    (urls : List String) (acts : List Action) (s : System)
    (hnew : NewWatcherManager parse h interval timeout port = .ok (wm0, h0))
    (hexec : sysFrom (WaitAndWatch (addWatchers wm0 h0 urls).1) acts = some s) :
    (s.metricsClosed = true → ∀ r ∈ s.runs, r.pc = .returned none) ∧
    (∀ i, s.stop = .atWatcher i → s.metricsClosed = false ∧
      ∀ (j : Nat) (r : RunState), j < i → s.runs[j]? = some r → r.pc = .returned none) ∧
    (∀ (i : Nat) (r : RunState) (err : Option GoError),
      s.runs[i]? = some r → r.pc = .returned err →
      ∀ more s2, sysFrom s more = some s2 → s2.runs[i]? = some r) ∧
    s.sendOnClosed = false ∧
    (∀ i, sysStep s (.sendClosed i) = none) ∧
    s.runs.length = urls.length := by
  obtain ⟨hnd, hlenw⟩ := addWatchers_distinct parse h interval timeout port wm0 h0 urls hnew
  have hinit : stopInvariant (WaitAndWatch (addWatchers wm0 h0 urls).1) := by
    refine ⟨rfl, ?_, ?_, ?_⟩
    · intro hc
      cases hc
    · intro i hi
      cases hi
    · intro hst
      cases hst
  have hlen0 : (WaitAndWatch (addWatchers wm0 h0 urls).1).runs.length
      = (WaitAndWatch (addWatchers wm0 h0 urls).1).wm.Watchers.length := by
    simp [WaitAndWatch]
  obtain ⟨⟨hpanic, hclosed, hat, hret⟩, _, hlen⟩ :=
    stopInvariant_sysFrom acts _ s hnd hlen0 hinit hexec
  refine ⟨?_, ?_, ?_, hpanic, ?_, ?_⟩
  · intro hcl r hr
    obtain ⟨j, hj⟩ := List.mem_iff_getElem?.mp hr
    exact hret (hclosed hcl) j r hj
  · intro i hi
    refine ⟨?_, hat i hi⟩
    cases hcl : s.metricsClosed with
    | false => rfl
    | true =>
      have := hclosed hcl
      rw [hi] at this
      cases this
  · intro i r err hr hpc more s2 hmore
    exact returned_frozen more s s2 i r err hr hpc hmore
  · intro i
    cases hstep : sysStep s (.sendClosed i) with
    | none => rfl
    | some s1 =>
      obtain ⟨w, q, cres, _, hq, hpc, hcl, _⟩ := sysStep_sendClosed s s1 i hstep
      have hq2 := hret (hclosed hcl) i q hq
      rw [hpc] at hq2
      cases hq2
  · rw [hlen, hlen0]
    exact hlenw

/-- C8 at a manager with two watchers: the first probes once and its result is
consumed, then Stop cancels both watchers in order and closes Metrics. -/
theorem Stop_closes_after_cancels_witness :
    ∃ s : System,
      sysFrom (WaitAndWatch (addWatchers
          { Watchers := [], Timeout := 2000000000, Interval := 200000000,
            WaitGroup := 1, Metrics := 0, Port := 8080 } { next := 2 }
          ["http://a", "http://b"]).1)
        [.tick 0 (.response 200 { total := 100000000, dnsDone := 0, tlsDone := 0, connDone := 0 }),
         .deliver 0, .callStop, .cancel 0, .cancel 1, .closeMetrics, .catcherExit, .shutdown]
        = some s ∧
      s.metricsClosed = true ∧ (∀ r ∈ s.runs, r.pc = .returned none) ∧
      s.sendOnClosed = false ∧ waitGroupCounter s = 0 :=
  ⟨_, rfl, rfl,
    (Stop_closes_after_cancels ParseDuration { next := 0 } "200ms" "2s" 8080
      { Watchers := [], Timeout := 2000000000, Interval := 200000000,
        WaitGroup := 1, Metrics := 0, Port := 8080 } { next := 2 }
      ["http://a", "http://b"]
      [.tick 0 (.response 200 { total := 100000000, dnsDone := 0, tlsDone := 0, connDone := 0 }),
       .deliver 0, .callStop, .cancel 0, .cancel 1, .closeMetrics, .catcherExit, .shutdown]
      _ (by decide) rfl).1 rfl,
    rfl, by decide⟩

theorem runStep_done (w : Watcher) (r r1 : RunState) (ev : RunEvent)
    (hd : r.done = r.pc.doneOwed) (h : runStep w r ev = some r1) :
    r1.done = r1.pc.doneOwed := by
  have hrun : runFrom w r [ev] = some r1 := by simp [runFrom, h]
  obtain ⟨_, _, h3⟩ := runFrom_account w [ev] r r1 hrun
  omega

theorem set_keeps_done (runs : List RunState) (k : Nat) (w : Watcher)
    (q q1 : RunState) (ev : RunEvent) (hq : runs[k]? = some q)
    (hstep : runStep w q ev = some q1)
    (hall : ∀ (j : Nat) (r : RunState), runs[j]? = some r → r.done = r.pc.doneOwed) :
    ∀ (j : Nat) (r : RunState), (runs.set k q1)[j]? = some r → r.done = r.pc.doneOwed := by
  intro j r hr
  by_cases hkj : k = j
  · subst hkj
    have hklen : k < runs.length := by
      rw [List.getElem?_eq_some] at hq
      exact hq.1
    rw [List.getElem?_set_self hklen] at hr
    cases hr
    exact runStep_done w q q1 ev (hall k q hq) hstep
  · rw [List.getElem?_set_ne hkj] at hr
    exact hall j r hr

theorem exitInvariant_step (s s1 : System) (a : Action)
    (hinv : exitInvariant s) (h : sysStep s a = some s1) : exitInvariant s1 := by
  obtain ⟨hcatch, hsrv, hdone⟩ := hinv
  cases a with
  | tick k rt =>
    obtain ⟨w, q, q1, _, hq, hstep, hs1⟩ := sysStep_tick s s1 k rt h
    subst hs1
    exact ⟨hcatch, hsrv, set_keeps_done s.runs k w q q1 _ hq hstep hdone⟩
  | deliver k =>
    obtain ⟨w, q, cres, q1, _, hq, _, _, _, _, hstep, hs1⟩ := sysStep_deliver s s1 k h
    subst hs1
    exact ⟨hcatch, hsrv, set_keeps_done s.runs k w q q1 _ hq hstep hdone⟩
  | sendClosed k =>
    obtain ⟨w, q, cres, _, _, _, _, hs1⟩ := sysStep_sendClosed s s1 k h
    subst hs1
    exact ⟨hcatch, hsrv, hdone⟩
  | callStop =>
    obtain ⟨hst, hs1⟩ := sysStep_callStop s s1 h
    subst hs1
    refine ⟨hcatch, ?_, hdone⟩
    intro hd
    have := hsrv hd
    rw [hst] at this
    cases this
  | cancel k =>
    obtain ⟨i, wi, wj, q, q1, hst, _, _, hq, _, hstep, hs1⟩ := sysStep_cancel s s1 k h
    subst hs1
    refine ⟨hcatch, ?_, set_keeps_done s.runs k wj q q1 _ hq hstep hdone⟩
    intro hd
    have := hsrv hd
    rw [hst] at this
    cases this
  | closeMetrics =>
    obtain ⟨i, _, _, hs1⟩ := sysStep_closeMetrics s s1 h
    subst hs1
    exact ⟨fun _ => rfl, fun _ => rfl, hdone⟩
  | catcherExit =>
    obtain ⟨hcl, _, hs1⟩ := sysStep_catcherExit s s1 h
    subst hs1
    exact ⟨fun _ => hcl, hsrv, hdone⟩
  | shutdown =>
    obtain ⟨hst, _, hs1⟩ := sysStep_shutdown s s1 h
    subst hs1
    exact ⟨hcatch, fun _ => hst, hdone⟩

theorem exitInvariant_sysFrom (acts : List Action) (s s2 : System)
    (hinv : exitInvariant s) (h : sysFrom s acts = some s2) : exitInvariant s2 := by
  induction acts generalizing s with
  | nil =>
    simp only [sysFrom, Option.some.injEq] at h
    subst h
    exact hinv
  | cons a rest ih =>
    simp only [sysFrom] at h
    cases hstep : sysStep s a with
    | none => simp [hstep] at h
    | some s1 =>
      rw [hstep] at h
      exact ih s1 (exitInvariant_step s s1 a hinv hstep) h

theorem sum_owed_nonneg (runs : List RunState)
    (hdone : ∀ (j : Nat) (r : RunState), runs[j]? = some r → r.done = r.pc.doneOwed) :
    0 ≤ (runs.map (fun r => (1 : Int) - (r.done : Int))).sum := by
  apply List.sum_nonneg
  intro x hx
  obtain ⟨r, hr, hxr⟩ := List.mem_map.mp hx
  obtain ⟨j, hj⟩ := List.mem_iff_getElem?.mp hr
  have hd := hdone j r hj
  have hle : r.done ≤ 1 := by
    rw [hd]
    cases r.pc <;> simp [RunPc.doneOwed]
  omega

theorem WaitAndWatch_exitInvariant (wm : WatcherManager) : exitInvariant (WaitAndWatch wm) := by
  refine ⟨?_, ?_, ?_⟩
  · intro hc
    cases hc
  · intro hc
    cases hc
  · intro j r hr
    simp only [WaitAndWatch, List.getElem?_map] at hr
    cases hw : wm.Watchers[j]? with
    | none => simp [hw] at hr
    | some w =>
      simp only [hw, Option.map_some', Option.some.injEq] at hr
      subst hr
      rfl

theorem WaitAndWatch_stopInvariant (wm : WatcherManager) : stopInvariant (WaitAndWatch wm) := by
  refine ⟨rfl, ?_, ?_, ?_⟩
  · intro hc
    cases hc
  · intro i hi
    cases hi
  · intro hst
    cases hst

/-- C9 fails on the code: in every execution of the system that WaitAndWatch
starts for a manager built by NewWatcherManager and AddWatcher, once the watcher
at index `k` has returned a probe error, whatever happens afterwards Stop never
gets past that watcher: where Stop stands at `k` neither a cancel rendezvous nor
the close of Metrics is possible, Metrics is never closed, Stop never returns,
MetricsCatcher never returns, the server is never shut down, and the counter of
the WaitGroup stays positive, so WaitAndWatch never returns. -/
theorem Stop_blocks_after_probe_error (parse : String → Except String TimeDuration)
    (h : Heap) (interval timeout : String) (port : Int) (wm0 : WatcherManager) (h0 : Heap)
    (urls : List String) (pre post : List Action) (s1 s2 : System) (k : Nat)
    (r : RunState) (err : GoError)
    (hnew : NewWatcherManager parse h interval timeout port = .ok (wm0, h0))
    (hpre : sysFrom (WaitAndWatch (addWatchers wm0 h0 urls).1) pre = some s1)
    (hk : s1.runs[k]? = some r) (hpc : r.pc = .returned (some err))
    (hpost : sysFrom s1 post = some s2) :
    s2.metricsClosed = false ∧ s2.stop ≠ .returned ∧
    (∀ i, s2.stop = .atWatcher i → i ≤ k) ∧
    (s2.stop = .atWatcher k →
      (∀ j, sysStep s2 (.cancel j) = none) ∧ sysStep s2 .closeMetrics = none) ∧
    s2.catcherReturned = false ∧ s2.serverDown = false ∧
    0 < waitGroupCounter s2 := by
  obtain ⟨hnd, _⟩ := addWatchers_distinct parse h interval timeout port wm0 h0 urls hnew
  have hall : sysFrom (WaitAndWatch (addWatchers wm0 h0 urls).1) (pre ++ post) = some s2 := by
    rw [sysFrom_append, hpre]
    exact hpost
  have hlen0 : (WaitAndWatch (addWatchers wm0 h0 urls).1).runs.length
      = (WaitAndWatch (addWatchers wm0 h0 urls).1).wm.Watchers.length := by
    simp [WaitAndWatch]
  obtain ⟨⟨_, hclosed, hat, hret⟩, hwm, hlen⟩ :=
    stopInvariant_sysFrom (pre ++ post) _ s2 hnd hlen0
      (WaitAndWatch_stopInvariant _) hall
  obtain ⟨hcatch, hsrv, hdone⟩ :=
    exitInvariant_sysFrom (pre ++ post) _ s2 (WaitAndWatch_exitInvariant _) hall
  have hk2 : s2.runs[k]? = some r := returned_frozen post s1 s2 k r (some err) hk hpc hpost
  have hne : ¬ r.pc = .returned none := by
    rw [hpc]
    intro hc
    cases hc
  have hstop : s2.stop ≠ .returned := fun hst => hne (hret hst k r hk2)
  have hopen : s2.metricsClosed = false := by
    cases hcl : s2.metricsClosed with
    | false => rfl
    | true => exact absurd (hclosed hcl) hstop
  have hcatcher : s2.catcherReturned = false := by
    cases hc : s2.catcherReturned with
    | false => rfl
    | true =>
      have := hcatch hc
      rw [hopen] at this
      cases this
  have hserver : s2.serverDown = false := by
    cases hc : s2.serverDown with
    | false => rfl
    | true => exact absurd (hsrv hc) hstop
  refine ⟨hopen, hstop, ?_, ?_, hcatcher, hserver, ?_⟩
  · intro i hi
    by_contra hlt
    exact hne (hat i hi k r (by omega) hk2)
  · intro hst
    constructor
    · intro j
      cases hstep : sysStep s2 (.cancel j) with
      | none => rfl
      | some s3 =>
        obtain ⟨i, wi, wj, q, q1, hst2, hwi, hwj, hq, hc, hrun, _⟩ :=
          sysStep_cancel s2 s3 j hstep
        rw [hst] at hst2
        cases hst2
        have hnd2 : (s2.wm.Watchers.map (fun w => w.Cancel)).Nodup := by
          rw [hwm]
          exact hnd
        have hjk : j = k := cancel_index s2.wm.Watchers hnd2 k j wi wj hwi hwj hc
        subst hjk
        rw [hk2] at hq
        cases hq
        rw [runStep_returned wj r (some err) hpc .cancel] at hrun
        cases hrun
    · cases hstep : sysStep s2 .closeMetrics with
      | none => rfl
      | some s3 =>
        obtain ⟨i, hst2, hw, _⟩ := sysStep_closeMetrics s2 s3 hstep
        rw [hst] at hst2
        cases hst2
        rw [List.getElem?_eq_none_iff] at hw
        have hklen : k < s2.runs.length := by
          rw [List.getElem?_eq_some] at hk2
          exact hk2.1
        have hl2 : s2.runs.length = s2.wm.Watchers.length := by
          rw [hlen, hwm]
          exact hlen0
        omega
  · have hsum := sum_owed_nonneg s2.runs hdone
    unfold waitGroupCounter
    rw [hcatcher, hserver]
    simp only [Bool.false_eq_true, if_false]
    omega

/-- C9 at the failing input: one registered watcher, whose first probe is
refused by the server; Stop is called afterwards and stands blocked at that
watcher, with Metrics open and the WaitGroup counter at 2. -/
theorem Stop_blocks_after_probe_error_witness :
    ∃ s : System,
      sysFrom (WaitAndWatch (addWatchers
          { Watchers := [], Timeout := 2000000000, Interval := 200000000,
            WaitGroup := 1, Metrics := 0, Port := 8080 } { next := 2 }
          ["http://a"]).1)
        ([.tick 0 (.failure { typeName := "*net.OpError", msg := "connection refused" })]
          ++ [.callStop]) = some s ∧
      s.stop = .atWatcher 0 ∧ waitGroupCounter s = 2 ∧
      s.metricsClosed = false ∧ s.catcherReturned = false ∧
      (∀ j, sysStep s (.cancel j) = none) ∧ sysStep s .closeMetrics = none :=
  ⟨_, rfl, rfl, by decide,
    (Stop_blocks_after_probe_error ParseDuration { next := 0 } "200ms" "2s" 8080
      { Watchers := [], Timeout := 2000000000, Interval := 200000000,
        WaitGroup := 1, Metrics := 0, Port := 8080 } { next := 2 }
      ["http://a"]
      [.tick 0 (.failure { typeName := "*net.OpError", msg := "connection refused" })]
      [.callStop] _ _ 0
      { pc := .returned (some { typeName := "*net.OpError", msg := "connection refused" }),
        checks := 1, sent := [], done := 1 }
      { typeName := "*net.OpError", msg := "connection refused" }
      (by decide) rfl rfl rfl rfl).1,
    (Stop_blocks_after_probe_error ParseDuration { next := 0 } "200ms" "2s" 8080
      { Watchers := [], Timeout := 2000000000, Interval := 200000000,
        WaitGroup := 1, Metrics := 0, Port := 8080 } { next := 2 }
      ["http://a"]
      [.tick 0 (.failure { typeName := "*net.OpError", msg := "connection refused" })]
      [.callStop] _ _ 0
      { pc := .returned (some { typeName := "*net.OpError", msg := "connection refused" }),
        checks := 1, sent := [], done := 1 }
      { typeName := "*net.OpError", msg := "connection refused" }
      (by decide) rfl rfl rfl rfl).2.2.2.2.1,
    ((Stop_blocks_after_probe_error ParseDuration { next := 0 } "200ms" "2s" 8080
      { Watchers := [], Timeout := 2000000000, Interval := 200000000,
        WaitGroup := 1, Metrics := 0, Port := 8080 } { next := 2 }
      ["http://a"]
      [.tick 0 (.failure { typeName := "*net.OpError", msg := "connection refused" })]
      [.callStop] _ _ 0
      { pc := .returned (some { typeName := "*net.OpError", msg := "connection refused" }),
        checks := 1, sent := [], done := 1 }
      { typeName := "*net.OpError", msg := "connection refused" }
      (by decide) rfl rfl rfl rfl).2.2.2.1 rfl).1,
    ((Stop_blocks_after_probe_error ParseDuration { next := 0 } "200ms" "2s" 8080
      { Watchers := [], Timeout := 2000000000, Interval := 200000000,
        WaitGroup := 1, Metrics := 0, Port := 8080 } { next := 2 }
      ["http://a"]
      [.tick 0 (.failure { typeName := "*net.OpError", msg := "connection refused" })]
      [.callStop] _ _ 0
      { pc := .returned (some { typeName := "*net.OpError", msg := "connection refused" }),
        checks := 1, sent := [], done := 1 }
      { typeName := "*net.OpError", msg := "connection refused" }
      (by decide) rfl rfl rfl rfl).2.2.2.1 rfl).2⟩

end Urlwatch
